import Mathlib

/-!
Shallow embedding of the `poc-backend` package of the
`masuta-ea-chatbot-prototype` repository.

Embedded pieces:
* `state/conversations.py` : the in-memory conversation store
  (`get_messages`, `append` with its trim step).
* `server.py`              : `build_current_turn_prompt`.
* `llm/runtime.py`         : `ModelManager.retrieve_augmentation`
  (including the semantics of the two Cypher queries it sends to the
  graph store), `apply_template`, and the keyword arguments `generate` /
  `stream_generate` pass to the model runtime.

External collaborators (the embedding model, the graph database's
approximate-nearest-neighbour index, the tokenizer and the language
model) are modelled as oracles: record fields holding the answers those
systems would give, including the possibility that a call raises.
Fallible calls are modelled with `Except String`.  Floating point
scores/parameters are only ever passed through or compared, never
computed with, so they are modelled as `Int` (scores) and `Rat`
(sampling parameters).
-/

namespace MasutaPoc

/-- A chat message, `{"role": ..., "content": ...}` as used throughout
`state/conversations.py`, `server.py` and `llm/runtime.py`. -/
structure Msg where
  role : String
  content : String
deriving DecidableEq

/-- `role == "system"` test used by the trim step of
`state/conversations.py` (`append`, line 23). -/
def isSys (m : Msg) : Bool :=
  m.role == "system"

/-- `role in ("user", "assistant")` test used by the trim step of
`state/conversations.py` (`append`, line 24). -/
def isUA (m : Msg) : Bool :=
  m.role == "user" || m.role == "assistant"

/-- Python's `l[-n:]` slice (the trim `ua[-max_turns*2:]`): for `n = 0`
Python returns the whole list (`l[-0:] = l[0:]`), otherwise the last
`n` elements. -/
def pyLastSlice (n : Nat) (l : List α) : List α :=
  if n = 0 then l else l.drop (l.length - n)

/-- The trim applied by `append` in `state/conversations.py` (lines
23-25): keep the first stored system message and the last
`max_turns*2` user/assistant messages, dropping everything else. -/
def trimOf (maxTurns : Nat) (l : List Msg) : List Msg :=
  (l.filter isSys).take 1 ++ pyLastSlice (maxTurns * 2) (l.filter isUA)

/-- Effect of `append(conversation_id, role, content, max_turns)` from
`state/conversations.py` (lines 19-26) on one conversation's stored
message list: push the new message, then trim. -/
def append_trim (maxTurns : Nat) (msgs : List Msg) (m : Msg) : List Msg :=
  trimOf maxTurns (msgs ++ [m])

/-- The process-wide `_CONV` mapping of `state/conversations.py`,
modelled as an insertion-ordered association list (Python dicts keep
insertion order; keys are unique). -/
abbrev ConvStore := List (String × List Msg)

/-- `_CONV.get(conversation_id)`-style lookup. -/
def lookupConv (st : ConvStore) (cid : String) : Option (List Msg) :=
  (st.find? (fun p => p.1 == cid)).map (fun p => p.2)

/-- `get_messages` from `state/conversations.py` (lines 16-17):
`_CONV.get(conversation_id, [])`. -/
def get_messages (st : ConvStore) (cid : String) : List Msg :=
  (lookupConv st cid).getD []

/-- Replace the stored list of an existing conversation. -/
def updateConv (st : ConvStore) (cid : String) (v : List Msg) : ConvStore :=
  st.map (fun p => if p.1 == cid then (p.1, v) else p)

/-- `append` from `state/conversations.py` (lines 19-26) at store
level: `setdefault(conversation_id, [])` (inserting a fresh entry at
the end for an unknown key), push the message, trim, store back. -/
def store_append (maxTurns : Nat) (st : ConvStore) (cid role content : String) :
    ConvStore :=
  match lookupConv st cid with
  | some msgs => updateConv st cid (append_trim maxTurns msgs ⟨role, content⟩)
  | none => st ++ [(cid, append_trim maxTurns [] ⟨role, content⟩)]

/-- `build_current_turn_prompt(user_text, ctx)` from `server.py`
(lines 95-105): a fresh system message (base prompt plus the
`[CONTEXT]` block when `ctx` is truthy, i.e. non-empty) followed by the
current user message. -/
def build_current_turn_prompt (system_prompt user_text ctx : String) : List Msg :=
  [⟨"system", system_prompt ++ (if ctx = "" then "" else "\n\n[CONTEXT]\n" ++ ctx)⟩,
   ⟨"user", user_text⟩]

/-- The message-list transformation inside `apply_template` from
`llm/runtime.py` (lines 216-219): prepend the default system message
when the list is empty or its first message is not `role == "system"`.
(The subsequent `tok.apply_chat_template` call is the external
tokenizer's rendering and is not modelled.) -/
def apply_template_messages (system_prompt : String) (messages : List Msg) :
    List Msg :=
  match messages with
  | [] => [⟨"system", system_prompt⟩]
  | m :: rest =>
    if m.role == "system" then m :: rest
    else ⟨"system", system_prompt⟩ :: m :: rest

/-- The keyword arguments `generate` (`llm/runtime.py` lines 224-227)
passes to `self.model.generate`, beyond the tokenized inputs.  The
source passes `max_new_tokens`, `temperature` and `top_p` and nothing
else; in particular it never sets `do_sample`, which is recorded here
as an `Option Bool` left at `none` ("not specified, the runtime's
generation config decides"). -/
structure GenKwargs where
  max_new_tokens : Nat
  temperature : Rat
  top_p : Rat
  do_sample : Option Bool
deriving DecidableEq

/-- Sampling-related keyword arguments built by `generate`
(`llm/runtime.py` lines 224-227). -/
def generate_kwargs (max_new_tokens : Nat) (temperature top_p : Rat) : GenKwargs :=
  { max_new_tokens := max_new_tokens
    temperature := temperature
    top_p := top_p
    do_sample := none }

/-- Sampling-related keyword arguments built by `stream_generate`
(`llm/runtime.py` lines 236-242); identical to those of `generate`
(the extra `streamer` entry is the transport, not a sampling
parameter). -/
def stream_generate_kwargs (max_new_tokens : Nat) (temperature top_p : Rat) :
    GenKwargs :=
  { max_new_tokens := max_new_tokens
    temperature := temperature
    top_p := top_p
    do_sample := none }

/-! ### Retrieval client (`llm/runtime.py`, `retrieve_augmentation`) -/

/-- Character-level lowercasing, Python `str.lower()` / Cypher
`toLower` (ASCII-faithful). -/
def lowerStr (s : String) : String :=
  String.mk (s.toList.map Char.toLower)

/-- Python `str.strip()` with no argument: drop leading and trailing
whitespace. -/
def trimStr (s : String) : String :=
  let l := s.toList.dropWhile Char.isWhitespace
  String.mk ((l.reverse.dropWhile Char.isWhitespace).reverse)

/-- Python `.replace("\n", " ")`: replace every newline character by a
space. -/
def replaceNl (s : String) : String :=
  String.mk (s.toList.map (fun c => if c = '\n' then ' ' else c))

/-- `"\n".join(parts)`-style joining. -/
def joinWith (sep : String) : List String → String
  | [] => ""
  | [x] => x
  | x :: y :: xs => x ++ sep ++ joinWith sep (y :: xs)

/-- Substring test on character lists: does the second list start with
the first? -/
def leadsWith : List Char → List Char → Bool
  | [], _ => true
  | _ :: _, [] => false
  | a :: as, b :: bs => a == b && leadsWith as bs

/-- `pat in s` (Python) and `s CONTAINS pat` (Cypher): `pat` occurs as
a contiguous substring of `s`; the empty pattern always matches. -/
def strContains (s pat : String) : Bool :=
  s.toList.tails.any (fun t => leadsWith pat.toList t)

/-- A node of the graph store, restricted to the properties the two
Cypher queries of `retrieve_augmentation` read: `id`, `name`,
`context`, `text`, `value`.  `none` is a NULL / absent property. -/
structure DbNode where
  id : Option String
  name : Option String
  context : Option String
  text : Option String
  value : Option String
deriving DecidableEq

/-- The graph store plus the behaviour of its external vector index,
as seen by one `retrieve_augmentation` call.
* `nodes` : every node, in the store's scan order (used by the keyword
  fallback query's bare `MATCH (n)`).
* `edges` : the `HAS_EMBEDDING` relationships, as (source, target).
* `ann`   : the oracle for `db.index.vector.queryNodes($index, $k, $emb)`
  — the ranked (node, score) hits the index returns for an embedding.
* `annFails` / `kwFails` : when `some e`, running the vector-search /
  keyword-fallback query raises an exception with message `e`.
* `introFails` : when `some e`, the `SHOW INDEXES` introspection query
  raises; the source wraps that call (and the no-op dimension probe) in
  `try/except` blocks that only print, so this field is never read by
  the model of the function's result. -/
structure Store where
  nodes : List DbNode
  edges : List (DbNode × DbNode)
  ann : List Int → List (DbNode × Int)
  annFails : Option String
  kwFails : Option String
  introFails : Option String

/-- The embedding collaborator: `self.embedder.encode([query])[0]`
(`llm/runtime.py` line 57), which can raise. -/
structure Embedder where
  encode : String → Except String (List Int)

/-- Owner resolution from the vector-search Cypher query
(`llm/runtime.py` lines 110-113):
`OPTIONAL MATCH (owner)-[:HAS_EMBEDDING]->(node)`,
`OPTIONAL MATCH (node)-[:HAS_EMBEDDING]->(owner2)`,
`coalesce(owner, owner2, node)`.  Multiplicity of OPTIONAL MATCH is
approximated by the first matching edge. -/
def resolveOwner (edges : List (DbNode × DbNode)) (node : DbNode) : DbNode :=
  match edges.find? (fun e => e.2 == node) with
  | some e => e.1
  | none =>
    match edges.find? (fun e => e.1 == node) with
    | some e => e.2
    | none => node

/-- `[n.context, n.text, n.value, n.name]` as in both Cypher queries
(`llm/runtime.py` lines 116 and 176). -/
def textualFields (n : DbNode) : List (Option String) :=
  [n.context, n.text, n.value, n.name]

/-- `any(f IN fields WHERE f IS NOT NULL AND f <> '')` — the WHERE
filter of the vector-search query (line 117). -/
def hasTextual (n : DbNode) : Bool :=
  (textualFields n).any fun f =>
    match f with
    | some s => s != ""
    | none => false

/-- `coalesce(n.context, n.text, n.value, n.name)` — first non-NULL
textual field (lines 121 and 180); note NULL-ness, not emptiness, is
what coalesce tests. -/
def coalesceFields (n : DbNode) : Option String :=
  match n.context with
  | some s => some s
  | none =>
    match n.text with
    | some s => some s
    | none =>
      match n.value with
      | some s => some s
      | none => n.name

/-- One row returned by either Cypher query: the projection map
`n { .id, .name, context: coalesce(...), labels: labels(n) }` plus the
score (labels are never read afterwards and are omitted). -/
structure Row where
  id : Option String
  name : Option String
  context : Option String
  score : Int
deriving DecidableEq

/-- The projection `RETURN n { .id, .name, context: coalesce(...) }`. -/
def projectNode (n : DbNode) (score : Int) : Row :=
  { id := n.id, name := n.name, context := coalesceFields n, score := score }

/-- Insert keeping scores in descending order (earlier rows first on
ties). -/
def insertByScore (r : Row) : List Row → List Row
  | [] => [r]
  | x :: xs => if x.score ≤ r.score then r :: x :: xs else x :: insertByScore r xs

/-- `ORDER BY score DESC` (line 125). -/
def sortByScoreDesc (l : List Row) : List Row :=
  l.foldr insertByScore []

/-- Result of the vector-search Cypher query `cypher_vec`
(`llm/runtime.py` lines 105-127) given the raw index hits: resolve
owners, keep nodes with a non-NULL non-empty textual field, project,
order by score descending, `LIMIT 5` (the source fixes `k = 5`,
line 128). -/
def cypherVecPost (store : Store) (hits : List (DbNode × Int)) : List Row :=
  let resolved := hits.map (fun h => (resolveOwner store.edges h.1, h.2))
  let kept := resolved.filter (fun h => hasTextual h.1)
  let projected := kept.map (fun h => projectNode h.1 h.2)
  (sortByScoreDesc projected).take 5

/-- The WHERE filter of the keyword-fallback query (line 177):
`any(f IN fields WHERE f IS NOT NULL AND toLower(f) CONTAINS $kw)`. -/
def kwMatches (phrase : String) (n : DbNode) : Bool :=
  (textualFields n).any fun f =>
    match f with
    | some s => strContains (lowerStr s) phrase
    | none => false

/-- Result of the keyword-fallback Cypher query `cypher_kw`
(`llm/runtime.py` lines 174-185): scan all nodes, keep those with a
field containing the phrase case-insensitively, project with constant
score `1.0`, `LIMIT 5`, no ordering. -/
def cypherKwPost (nodes : List DbNode) (phrase : String) : List Row :=
  ((nodes.filter (kwMatches phrase)).map (fun n => projectNode n 1)).take 5

/-- Accumulator-based whitespace splitter (accumulator holds the
current token reversed). -/
def wsSplitAux : List Char → List Char → List (List Char)
  | [], acc => if acc.isEmpty then [] else [acc.reverse]
  | c :: cs, acc =>
    if c.isWhitespace then
      if acc.isEmpty then wsSplitAux cs [] else acc.reverse :: wsSplitAux cs []
    else wsSplitAux cs (c :: acc)

/-- Python `str.split()` with no separator: split on whitespace runs,
dropping empty pieces. -/
def pySplitWs (s : String) : List String :=
  (wsSplitAux s.toList []).map String.mk

/-- The punctuation set of `t.strip(".,:;!?()[]\"'")`
(`llm/runtime.py` line 168). -/
def stripChars : List Char :=
  ['.', ',', ':', ';', '!', '?', '(', ')', '[', ']', '"', '\'']

/-- Python `t.strip(chars)`: remove leading and trailing characters
from the set. -/
def pyStrip (s : String) : String :=
  let l := s.toList.dropWhile (fun c => stripChars.contains c)
  String.mk ((l.reverse.dropWhile (fun c => stripChars.contains c)).reverse)

/-- Phrase extraction of the keyword fallback (`llm/runtime.py` lines
162-170): if `"town planner"` occurs in the lowercased query use it;
otherwise the first punctuation-stripped whitespace token of length at
least 4; otherwise the whole lowercased query. -/
def extractPhrase (query : String) : String :=
  let qlow := lowerStr query
  if strContains qlow "town planner" then "town planner"
  else
    let tokens := (pySplitWs qlow).map pyStrip
    let tokens := tokens.filter (fun t => 4 ≤ t.length)
    match tokens with
    | t :: _ => t
    | [] => qlow

/-- Python truthy-or on an optional string: `a or b` where `None` and
`""` are falsy. -/
def pyOr (a : Option String) (b : String) : String :=
  match a with
  | some s => if s = "" then b else s
  | none => b

/-- One line of the rendered context (`llm/runtime.py` lines 206-210),
`i` counted from 1: `name = (n.get("name") or n.get("id") or
f"Result {i}").strip()`, `ctx = (n.get("context") or
"").strip().replace("\n", " ")`, `f"[{i}] {name}: {ctx}"`. -/
def renderLine (i : Nat) (r : Row) : String :=
  let name := trimStr (pyOr r.name (pyOr r.id ("Result " ++ toString i)))
  let ctx := replaceNl (trimStr (r.context.getD ""))
  "[" ++ toString i ++ "] " ++ name ++ ": " ++ ctx

/-- `"\n".join(parts)` over the enumerated rows (lines 205-211). -/
def renderRows (rows : List Row) : String :=
  joinWith "\n" (rows.enum.map (fun p => renderLine (p.1 + 1) p.2))

/-- The fields of `ModelManager` that `retrieve_augmentation` reads. -/
structure MM where
  system_prompt : String
  driver : Option Store
  embedder : Option Embedder
  vector_index : Option String

/-- Python truthiness of
`not (self.driver and self.embedder and self.vector_index)`
(`llm/runtime.py` line 52): a missing driver or embedder, and a missing
or empty index name, disable retrieval. -/
def ragEnabled (mm : MM) : Bool :=
  mm.driver.isSome && mm.embedder.isSome &&
    (match mm.vector_index with
     | some s => s != ""
     | none => false)

/-- `ModelManager.retrieve_augmentation(query)` from `llm/runtime.py`
(lines 50-211).  Returns `Except.error e` when an uncaught exception
with message `e` propagates to the caller.  The `SHOW INDEXES`
introspection and the no-op dimension probe (lines 62-102) are wrapped
in `try/except` blocks whose only effect is printing, so they do not
appear in the result; the `embedder.encode` call (line 57), the
vector-search execution (lines 156-157) and the keyword-fallback
execution (lines 191-192) are not guarded and propagate. -/
def retrieve_augmentation (mm : MM) (query : String) : Except String String :=
  match mm.driver, mm.embedder, mm.vector_index with
  | some store, some emb, some idx =>
    if idx = "" then Except.ok ""
    else
      match emb.encode query with
      | Except.error e => Except.error e
      | Except.ok qvec =>
        match store.annFails with
        | some e => Except.error e
        | none =>
          let rows := cypherVecPost store (store.ann qvec)
          if rows.isEmpty then
            match store.kwFails with
            | some e => Except.error e
            | none =>
              let krows := cypherKwPost store.nodes (extractPhrase query)
              if krows.isEmpty then Except.ok ""
              else Except.ok (renderRows krows)
          else Except.ok (renderRows rows)
  | _, _, _ => Except.ok ""

/-- Number of `self.embedder.encode` invocations one
`retrieve_augmentation` call performs: exactly one on every enabled
path (line 57 runs unconditionally right after the enabled check and
before any branch), zero when retrieval is disabled.  There is no
cache, lock or memo state anywhere in the function, so the count is
per call. -/
def encode_calls (mm : MM) (_query : String) : Nat :=
  if ragEnabled mm then 1 else 0

/-! ### Helper lemmas about the conversation trim -/

theorem ua_not_sys (m : Msg) (h : isUA m = true) : isSys m = false := by
  unfold isUA at h
  unfold isSys
  simp only [Bool.or_eq_true, beq_iff_eq] at h
  rcases h with h1 | h1 <;> rw [h1] <;> decide

theorem sys_not_ua (m : Msg) (h : isSys m = true) : isUA m = false := by
  unfold isSys at h
  unfold isUA
  rw [eq_of_beq h]
  decide

theorem pyLastSlice_nil (n : Nat) : pyLastSlice n ([] : List α) = [] := by
  unfold pyLastSlice
  split <;> simp

theorem pyLastSlice_singleton (n : Nat) (a : α) : pyLastSlice n [a] = [a] := by
  unfold pyLastSlice
  split
  · rfl
  · have h1 : ([a] : List α).length - n = 0 := by
      simp only [List.length_singleton]
      omega
    rw [h1, List.drop_zero]

theorem pyLastSlice_all (n : Nat) (l : List α) (h : l.length ≤ n) :
    pyLastSlice n l = l := by
  unfold pyLastSlice
  split
  · rfl
  · have h1 : l.length - n = 0 := by omega
    rw [h1, List.drop_zero]

theorem pyLastSlice_cons (n : Nat) (x : α) (l : List α) (hn : n ≠ 0)
    (h : n ≤ l.length) : pyLastSlice n (x :: l) = pyLastSlice n l := by
  unfold pyLastSlice
  rw [if_neg hn, if_neg hn]
  have h1 : (x :: l).length - n = (l.length - n) + 1 := by
    simp only [List.length_cons]
    omega
  rw [h1, List.drop_succ_cons]

theorem pyLastSlice_subset (n : Nat) (l : List α) : pyLastSlice n l ⊆ l := by
  unfold pyLastSlice
  split
  · exact fun a h => h
  · exact List.drop_subset _ _

theorem pyLastSlice_append (n : Nat) (xs ys : List α) :
    pyLastSlice n (pyLastSlice n xs ++ ys) = pyLastSlice n (xs ++ ys) := by
  rcases Nat.eq_zero_or_pos n with h0 | hpos
  · subst h0
    simp [pyLastSlice]
  · induction xs with
    | nil => simp [pyLastSlice_nil]
    | cons x xs ih =>
      by_cases hle : (x :: xs).length ≤ n
      · rw [pyLastSlice_all n (x :: xs) hle]
      · have hlen : n ≤ xs.length := by
          simp only [List.length_cons] at hle
          omega
        rw [pyLastSlice_cons n x xs (by omega) hlen, ih, List.cons_append,
          pyLastSlice_cons n x (xs ++ ys) (by omega)
            (by simp only [List.length_append]; omega)]

theorem take_one_append (xs ys : List α) :
    (xs.take 1 ++ ys).take 1 = (xs ++ ys).take 1 := by
  cases xs <;> simp

theorem take_one_append_left (xs ys : List α) (h : xs ≠ []) :
    (xs ++ ys).take 1 = xs.take 1 := by
  cases xs with
  | nil => exact absurd rfl h
  | cons a as => simp

theorem filter_take_one_filter (p : α → Bool) (l : List α) :
    ((l.filter p).take 1).filter p = (l.filter p).take 1 := by
  rw [List.filter_eq_self]
  intro a ha
  exact List.of_mem_filter (List.take_subset _ _ ha)

theorem sys_filter_ua_slice (N : Nat) (l : List Msg) :
    (pyLastSlice (N * 2) (l.filter isUA)).filter isSys = [] := by
  rw [List.filter_eq_nil_iff]
  intro a ha
  have hua : isUA a = true :=
    List.of_mem_filter (pyLastSlice_subset _ _ ha)
  simp [ua_not_sys a hua]

theorem ua_filter_sys_take (l : List Msg) :
    ((l.filter isSys).take 1).filter isUA = [] := by
  rw [List.filter_eq_nil_iff]
  intro a ha
  have hsys : isSys a = true :=
    List.of_mem_filter (List.take_subset _ _ ha)
  simp [sys_not_ua a hsys]

theorem ua_filter_ua_slice (N : Nat) (l : List Msg) :
    (pyLastSlice (N * 2) (l.filter isUA)).filter isUA
      = pyLastSlice (N * 2) (l.filter isUA) := by
  rw [List.filter_eq_self]
  intro a ha
  exact List.of_mem_filter (pyLastSlice_subset _ _ ha)

theorem trim_filter_sys (N : Nat) (l : List Msg) :
    (trimOf N l).filter isSys = (l.filter isSys).take 1 := by
  unfold trimOf
  rw [List.filter_append, filter_take_one_filter, sys_filter_ua_slice,
    List.append_nil]

theorem trim_filter_ua (N : Nat) (l : List Msg) :
    (trimOf N l).filter isUA = pyLastSlice (N * 2) (l.filter isUA) := by
  unfold trimOf
  rw [List.filter_append, ua_filter_sys_take, ua_filter_ua_slice,
    List.nil_append]

theorem trim_trim (N : Nat) (l : List Msg) (m : Msg) :
    trimOf N (trimOf N l ++ [m]) = trimOf N (l ++ [m]) := by
  unfold trimOf
  simp only [List.filter_append, filter_take_one_filter, sys_filter_ua_slice,
    ua_filter_sys_take, ua_filter_ua_slice, List.append_nil, List.nil_append,
    take_one_append, pyLastSlice_append]

/-- Any sequence of `append` calls on one conversation, starting from
an empty conversation, leaves it in the canonical trimmed form of the
full append history. -/
theorem foldl_append_trim (N : Nat) (hist : List Msg) :
    List.foldl (append_trim N) [] hist = trimOf N hist := by
  induction hist using List.reverseRecOn with
  | nil => simp [trimOf, pyLastSlice_nil]
  | append_singleton xs m ih =>
    rw [List.foldl_append, List.foldl_cons, List.foldl_nil, ih]
    exact trim_trim N xs m

/-! ### Concrete collaborators used by witnesses and counterexamples -/

/-- An embedder that always succeeds with a fixed vector. -/
def embW : Embedder := ⟨fun _ => Except.ok [1, 2, 3]⟩

/-- An embedder whose `encode` call raises. -/
def embFailW : Embedder := ⟨fun _ => Except.error "embfail"⟩

/-- An empty, failure-free store whose index returns no hits. -/
def storeEmptyW : Store := ⟨[], [], fun _ => [], none, none, none⟩

/-- A store whose vector-search execution raises `"boom"`. -/
def storeBoomW : Store := ⟨[], [], fun _ => [], some "boom", none, none⟩

/-- A fully configured manager over the empty store. -/
def mmW : MM := ⟨"sp", some storeEmptyW, some embW, some "idx"⟩

/-- A node whose only textual fields are `name = "the beta system"`. -/
def nodeBetaW : DbNode := ⟨some "n1", some "the beta system", none, none, none⟩

/-- A store containing only `nodeBetaW`, with an index returning no
hits. -/
def storeBetaW : Store := ⟨[nodeBetaW], [], fun _ => [], none, none, none⟩

/-- Manager over `storeBetaW`. -/
def mmBetaW : MM := ⟨"sp", some storeBetaW, some embW, some "idx"⟩

/-- A node with a non-NULL but empty `context` property and a
non-empty `name`. -/
def nodeEmptyCtxW : DbNode := ⟨none, some "X", some "", none, none⟩

/-- Store whose index returns the empty-context node as its only
hit. -/
def storeEmptyCtxW : Store :=
  ⟨[nodeEmptyCtxW], [], fun _ => [(nodeEmptyCtxW, 9)], none, none, none⟩

/-- First node of the two-hit rendering scenario. -/
def nodeSc1 : DbNode := ⟨some "i1", some "Node 1", some "desc A", none, none⟩

/-- Second node of the two-hit rendering scenario. -/
def nodeSc2 : DbNode := ⟨some "i2", some "Node 2", some "desc B", none, none⟩

/-- Store whose index returns the two scenario nodes with scores 9 and
5. -/
def storeSceneW : Store :=
  ⟨[nodeSc1, nodeSc2], [], fun _ => [(nodeSc1, 9), (nodeSc2, 5)], none, none, none⟩

/-- Manager over `storeSceneW`. -/
def mmSceneW : MM := ⟨"sp", some storeSceneW, some embW, some "idx"⟩

/-! ### Claim C1 -/

/-- C1, as stated, is false of the source: `retrieve_augmentation` has
no cache, lock or query normalization, so two successive calls with
the identical query text each execute the embedding/search path — two
executions total, not at most one. -/
theorem C1_counterexample :
    encode_calls mmW "hello" + encode_calls mmW "hello" = 2
    ∧ ¬ (encode_calls mmW "hello" + encode_calls mmW "hello" ≤ 1) := by
  have h : encode_calls mmW "hello" = 1 := rfl
  rw [h]
  exact ⟨rfl, by decide⟩

/-- C1 amended: when retrieval is enabled, each `retrieve_augmentation`
call performs exactly one `embedder.encode` invocation (there is no
memo cache), so two calls perform two; the function is a pure function
of the manager and the query, so two calls with the same query do
return the identical result. -/
theorem C1_amended (mm : MM) (q : String) (h : ragEnabled mm = true) :
    encode_calls mm q = 1
    ∧ encode_calls mm q + encode_calls mm q = 2
    ∧ retrieve_augmentation mm q = retrieve_augmentation mm q := by
  refine ⟨?_, ?_, rfl⟩ <;> simp [encode_calls, h]

/-- Witness for `C1_amended` at a concrete enabled manager. -/
theorem C1_amended_witness :
    ragEnabled mmW = true
    ∧ (encode_calls mmW "hello" = 1
       ∧ encode_calls mmW "hello" + encode_calls mmW "hello" = 2
       ∧ retrieve_augmentation mmW "hello" = retrieve_augmentation mmW "hello") :=
  ⟨rfl, C1_amended mmW "hello" rfl⟩

/-! ### Claim C2 -/

/-- C2, as stated, is false of the source: an exception raised while
executing the vector search (`storeBoomW`), or by the embedder itself
(`embFailW`), propagates to the caller instead of being treated as
zero rows. -/
theorem C2_counterexample :
    retrieve_augmentation ⟨"sp", some storeBoomW, some embW, some "idx"⟩ "hello"
      = Except.error "boom"
    ∧ retrieve_augmentation ⟨"sp", some storeEmptyW, some embFailW, some "idx"⟩ "hello"
      = Except.error "embfail" :=
  ⟨rfl, rfl⟩

/-- C2 amended: only the `SHOW INDEXES` introspection and the no-op
dimension probe are guarded by `try/except`; exceptions from the
embedder's `encode`, from the vector-search execution, and from the
keyword-fallback execution all propagate to the caller. -/
theorem C2_amended (sp idx q e : String) (store : Store) (emb : Embedder)
    (v : List Int) (hidx : idx ≠ "") :
    (emb.encode q = Except.error e →
       retrieve_augmentation ⟨sp, some store, some emb, some idx⟩ q
         = Except.error e)
    ∧ (emb.encode q = Except.ok v → store.annFails = some e →
       retrieve_augmentation ⟨sp, some store, some emb, some idx⟩ q
         = Except.error e)
    ∧ (emb.encode q = Except.ok v → store.annFails = none →
       cypherVecPost store (store.ann v) = [] → store.kwFails = some e →
       retrieve_augmentation ⟨sp, some store, some emb, some idx⟩ q
         = Except.error e)
    ∧ (∀ i2 : Option String,
       retrieve_augmentation
           ⟨sp, some { store with introFails := i2 }, some emb, some idx⟩ q
         = retrieve_augmentation ⟨sp, some store, some emb, some idx⟩ q) := by
  refine ⟨?_, ?_, ?_, ?_⟩
  · intro henc
    simp [retrieve_augmentation, hidx, henc]
  · intro henc hann
    simp [retrieve_augmentation, hidx, henc, hann]
  · intro henc hann hrows hkw
    simp [retrieve_augmentation, hidx, henc, hann, hrows, hkw]
  · intro i2
    rfl

/-- Witness for `C2_amended`: the vector-search failure of
`storeBoomW` reaches the caller. -/
theorem C2_amended_witness :
    retrieve_augmentation ⟨"sp", some storeBoomW, some embW, some "idx"⟩ "hi"
      = Except.error "boom" :=
  (C2_amended "sp" "idx" "hi" "boom" storeBoomW embW [1, 2, 3]
    (by decide)).2.1 rfl rfl

/-! ### Claim C3 -/

/-- C3, as stated, is false of the source: with the vector search
returning zero rows, for the query `"alpha beta"` the fallback
searches only for the single phrase `"alpha"` (the first token of
length at least 4), so a store item whose textual field contains the
other token `"beta"` is not returned — the result is empty, although
the claim's tokenize-and-match semantics would return the item. -/
theorem C3_counterexample :
    retrieve_augmentation mmBetaW "alpha beta" = Except.ok ""
    ∧ "beta" ∈ pySplitWs (lowerStr "alpha beta")
    ∧ strContains (lowerStr "the beta system") "beta" = true
    ∧ cypherVecPost storeBetaW (storeBetaW.ann [1, 2, 3]) = [] := by
  exact ⟨rfl, by decide, rfl, rfl⟩

/-- C3 amended: the keyword fallback executes exactly when the vector
search returns zero rows (its result — even a failure — is otherwise
ignored), and it searches for one single phrase chosen by
`extractPhrase` (`"town planner"` if present, else the first
punctuation-stripped token of length ≥ 4, else the whole lowercased
query), returning the first 5 store nodes with a textual field
containing that phrase case-insensitively. -/
theorem C3_amended (sp idx q e : String) (store : Store) (emb : Embedder)
    (v : List Int) (hidx : idx ≠ "") (henc : emb.encode q = Except.ok v)
    (hann : store.annFails = none) :
    (cypherVecPost store (store.ann v) ≠ [] →
       retrieve_augmentation ⟨sp, some store, some emb, some idx⟩ q
         = Except.ok (renderRows (cypherVecPost store (store.ann v))))
    ∧ (cypherVecPost store (store.ann v) = [] → store.kwFails = none →
       retrieve_augmentation ⟨sp, some store, some emb, some idx⟩ q
         = Except.ok
             (if (cypherKwPost store.nodes (extractPhrase q)).isEmpty then ""
              else renderRows (cypherKwPost store.nodes (extractPhrase q))))
    ∧ (cypherVecPost store (store.ann v) = [] → store.kwFails = some e →
       retrieve_augmentation ⟨sp, some store, some emb, some idx⟩ q
         = Except.error e) := by
  refine ⟨?_, ?_, ?_⟩
  · intro hne
    cases h : cypherVecPost store (store.ann v) with
    | nil => exact absurd h hne
    | cons a as => simp [retrieve_augmentation, hidx, henc, hann, h]
  · intro hrows hkw
    simp [retrieve_augmentation, hidx, henc, hann, hrows, hkw,
      apply_ite Except.ok]
  · intro hrows hkw
    simp [retrieve_augmentation, hidx, henc, hann, hrows, hkw]

/-- Witness for `C3_amended`: on `storeBetaW` the vector search is
empty, so the keyword branch decides the result. -/
theorem C3_amended_witness :
    retrieve_augmentation ⟨"sp", some storeBetaW, some embW, some "idx"⟩ "alpha beta"
      = Except.ok
          (if (cypherKwPost storeBetaW.nodes (extractPhrase "alpha beta")).isEmpty
           then ""
           else renderRows (cypherKwPost storeBetaW.nodes (extractPhrase "alpha beta"))) :=
  (C3_amended "sp" "idx" "alpha beta" "e" storeBetaW embW [1, 2, 3]
    (by decide) rfl rfl).2.1 rfl rfl

/-! ### Claim C4 -/

/-- C4, as stated, is false of the source: `generate` never sets
`do_sample` at all, so sampling is not enabled by the code even for
valid sampling parameters (`temperature = 1/5`, `top_p = 9/10`), and
greedy decoding is not requested by the code for `temperature = 0`. -/
theorem C4_counterexample :
    (0 : Rat) < 1 / 5 ∧ (0 : Rat) < 9 / 10 ∧ (9 : Rat) / 10 < 1
    ∧ (generate_kwargs 512 (1 / 5) (9 / 10)).do_sample ≠ some true
    ∧ (generate_kwargs 512 0 (9 / 10)).do_sample ≠ some false := by
  refine ⟨by norm_num, by norm_num, by norm_num, ?_, ?_⟩ <;>
    simp [generate_kwargs]

/-- C4 amended: `generate` (and `stream_generate` identically) simply
forwards `max_new_tokens`, `temperature` and `top_p` to the model
runtime and never sets `do_sample`; no sampling-safety policy exists
in the code, so the sampling mode is left to the runtime's generation
config regardless of the parameter values or compute backend. -/
theorem C4_amended (a : Nat) (t p : Rat) :
    (generate_kwargs a t p).do_sample = none
    ∧ (generate_kwargs a t p).max_new_tokens = a
    ∧ (generate_kwargs a t p).temperature = t
    ∧ (generate_kwargs a t p).top_p = p
    ∧ stream_generate_kwargs a t p = generate_kwargs a t p :=
  ⟨rfl, rfl, rfl, rfl, rfl⟩

/-! ### Claim C5 -/

/-- C5, as stated, is false of the source: appending a user message
and then a system message leaves both messages stored, but the trim
moves the system message to the front, so the surviving messages are
not in their original relative order (the stored list is not a
sublist of the append history). -/
theorem C5_counterexample :
    List.foldl (append_trim 8) [] [⟨"user", "a"⟩, ⟨"system", "s"⟩]
      = [⟨"system", "s"⟩, ⟨"user", "a"⟩]
    ∧ ¬ List.Sublist
        (List.foldl (append_trim 8) [] [⟨"user", "a"⟩, ⟨"system", "s"⟩])
        [Msg.mk "user" "a", Msg.mk "system" "s"] := by
  exact ⟨by decide, by decide⟩

/-- C5 amended: after every sequence of appends (with positive
`max_turns`) the stored list is exactly the earliest appended system
message (if any) followed by the last `2 * max_turns` appended
user/assistant messages; hence at most one system message, at most
`2 * max_turns` user/assistant messages, and the user/assistant
messages keep their original relative order (they form a suffix of
the user/assistant subsequence of the history) — but the surviving
system message is placed first even when appended later. -/
theorem C5_amended (N : Nat) (hist : List Msg) (hN : 0 < N) :
    List.foldl (append_trim N) [] hist
      = (hist.filter isSys).take 1 ++ pyLastSlice (N * 2) (hist.filter isUA)
    ∧ ((hist.filter isSys).take 1).length ≤ 1
    ∧ (pyLastSlice (N * 2) (hist.filter isUA)).length ≤ N * 2
    ∧ pyLastSlice (N * 2) (hist.filter isUA) <:+ hist.filter isUA := by
  refine ⟨foldl_append_trim N hist, ?_, ?_, ?_⟩
  · simp
  · unfold pyLastSlice
    rw [if_neg (by omega : ¬ N * 2 = 0), List.length_drop]
    omega
  · unfold pyLastSlice
    rw [if_neg (by omega : ¬ N * 2 = 0)]
    exact List.drop_suffix _ _

/-- Witness for `C5_amended` on a concrete three-message history. -/
theorem C5_amended_witness :
    (0 : Nat) < 8
    ∧ (List.foldl (append_trim 8) []
          [⟨"system", "s"⟩, ⟨"user", "a"⟩, ⟨"assistant", "b"⟩]
        = (([⟨"system", "s"⟩, ⟨"user", "a"⟩, ⟨"assistant", "b"⟩] :
              List Msg).filter isSys).take 1
          ++ pyLastSlice (8 * 2)
              (([⟨"system", "s"⟩, ⟨"user", "a"⟩, ⟨"assistant", "b"⟩] :
                  List Msg).filter isUA)
       ∧ ((([⟨"system", "s"⟩, ⟨"user", "a"⟩, ⟨"assistant", "b"⟩] :
              List Msg).filter isSys).take 1).length ≤ 1
       ∧ (pyLastSlice (8 * 2)
            (([⟨"system", "s"⟩, ⟨"user", "a"⟩, ⟨"assistant", "b"⟩] :
                List Msg).filter isUA)).length ≤ 8 * 2
       ∧ pyLastSlice (8 * 2)
            (([⟨"system", "s"⟩, ⟨"user", "a"⟩, ⟨"assistant", "b"⟩] :
                List Msg).filter isUA)
          <:+ ([⟨"system", "s"⟩, ⟨"user", "a"⟩, ⟨"assistant", "b"⟩] :
                List Msg).filter isUA) :=
  ⟨by decide,
   C5_amended 8 [⟨"system", "s"⟩, ⟨"user", "a"⟩, ⟨"assistant", "b"⟩] (by decide)⟩

/-! ### Claim C6 -/

/-- C6, as stated, is false of the source: `apply_template` only
checks the first message; an input list whose first message is not a
system message but which contains one later ends up with two system
messages after the default is prepended. -/
theorem C6_counterexample :
    ((apply_template_messages "base" [⟨"user", "u"⟩, ⟨"system", "s"⟩]).filter
        isSys).length = 2 := by
  decide

/-- C6 amended: the rendered prompt always begins with a system
message — `apply_template` prepends the default system message exactly
when the list is empty or its first message is not a system message —
and prompts built by `build_current_turn_prompt` contain exactly one
system message, in first position; but `apply_template` does not
deduplicate system messages occurring later in its input. -/
theorem C6_amended (sp u c : String) (msgs : List Msg) :
    apply_template_messages sp msgs ≠ []
    ∧ ((apply_template_messages sp msgs).headD ⟨"", ""⟩).role = "system"
    ∧ ((build_current_turn_prompt sp u c).filter isSys).length = 1
    ∧ ((build_current_turn_prompt sp u c).headD ⟨"", ""⟩).role = "system" := by
  have hsys : ∀ s : String, isSys ⟨"system", s⟩ = true := fun s => rfl
  have hu : ∀ s : String, isSys ⟨"user", s⟩ = false := fun s => rfl
  refine ⟨?_, ?_, ?_, rfl⟩
  · cases msgs with
    | nil => simp [apply_template_messages]
    | cons m rest =>
      simp only [apply_template_messages]
      split <;> simp
  · cases msgs with
    | nil => rfl
    | cons m rest =>
      simp only [apply_template_messages]
      by_cases h : (m.role == "system") = true
      · rw [if_pos h]
        simpa using eq_of_beq h
      · rw [if_neg h]
        rfl
  · unfold build_current_turn_prompt
    rw [List.filter_cons, List.filter_cons]
    simp [hsys, hu]

/-! ### Claim C7 -/

/-- C7, as stated, is false of the source in one detail: the snippet
is the first non-NULL textual field (Cypher `coalesce`), not the first
non-empty one — a node with a non-NULL empty `context` and a non-empty
`name` renders with an empty snippet. -/
theorem C7_counterexample :
    retrieve_augmentation ⟨"sp", some storeEmptyCtxW, some embW, some "idx"⟩ "query"
      = Except.ok "[1] X: "
    ∧ nodeEmptyCtxW.context = some ""
    ∧ nodeEmptyCtxW.name = some "X" :=
  ⟨rfl, rfl, rfl⟩

/-- C7 amended: the hit list is rendered as `"[i] <label>: <snippet>"`
lines joined by newlines, the label being the hit's name (falling back
to its id, then `"Result i"`) and the snippet its first non-NULL
textual field (possibly the empty string); the result is the empty
string when retrieval is disabled (missing driver, embedder, or
missing/empty index name) and when both the vector search and the
keyword fallback return no rows. -/
theorem C7_amended (sp q : String) (store : Store) (emb : Embedder)
    (d : Option Store) (o : Option Embedder) (oi : Option String)
    (v : List Int) (henc : emb.encode q = Except.ok v)
    (hann : store.annFails = none) (hkw : store.kwFails = none) :
    retrieve_augmentation ⟨sp, none, o, oi⟩ q = Except.ok ""
    ∧ retrieve_augmentation ⟨sp, d, none, oi⟩ q = Except.ok ""
    ∧ retrieve_augmentation ⟨sp, d, o, none⟩ q = Except.ok ""
    ∧ retrieve_augmentation ⟨sp, d, o, some ""⟩ q = Except.ok ""
    ∧ (cypherVecPost store (store.ann v) = [] →
       cypherKwPost store.nodes (extractPhrase q) = [] →
       retrieve_augmentation ⟨sp, some store, some emb, some "idx"⟩ q
         = Except.ok "")
    ∧ retrieve_augmentation mmSceneW "anything"
        = Except.ok "[1] Node 1: desc A\n[2] Node 2: desc B" := by
  refine ⟨?_, ?_, ?_, ?_, ?_, rfl⟩
  · cases o <;> cases oi <;> rfl
  · cases d <;> cases oi <;> rfl
  · cases d <;> cases o <;> rfl
  · cases d <;> cases o <;> rfl
  · intro hrows hkrows
    simp [retrieve_augmentation, henc, hann, hkw, hrows, hkrows]

/-- Witness for `C7_amended`: the empty store yields the empty
context. -/
theorem C7_amended_witness :
    retrieve_augmentation ⟨"sp", some storeEmptyW, some embW, some "idx"⟩ "hello"
      = Except.ok "" :=
  ((C7_amended "sp" "hello" storeEmptyW embW none none none [1, 2, 3]
      rfl rfl rfl).2.2.2.2.1) rfl rfl

/-! ### Claim C8 -/

/-- C8 confirmed: `build_current_turn_prompt` returns exactly the
two-element list `[system, user]`, the system content being the base
prompt plus the `"\n\n[CONTEXT]\n"` block exactly when the context is
non-empty; with an empty context the system content is exactly the
base prompt, which is passed by value and never mutated. -/
theorem C8_current_turn_prompt (sp u c : String) :
    build_current_turn_prompt sp u c
      = [⟨"system", sp ++ (if c = "" then "" else "\n\n[CONTEXT]\n" ++ c)⟩,
         ⟨"user", u⟩]
    ∧ (build_current_turn_prompt sp u "").headD ⟨"", ""⟩ = ⟨"system", sp⟩
    ∧ (build_current_turn_prompt sp u c).length = 2 := by
  refine ⟨rfl, ?_, rfl⟩
  simp [build_current_turn_prompt]

/-! ### Claim C9 -/

/-- C9 confirmed: for an identifier not in the store, `get_messages`
returns the empty list, and `append` silently creates the conversation
holding exactly the appended message (for the three roles of the data
model); both are total functions, so no error is ever raised. -/
theorem C9_unknown_conversation (st : ConvStore) (cid role content : String)
    (N : Nat) (hrole : role = "system" ∨ role = "user" ∨ role = "assistant")
    (hnew : lookupConv st cid = none) :
    get_messages st cid = []
    ∧ get_messages (store_append N st cid role content) cid
        = [⟨role, content⟩] := by
  have hfind : st.find? (fun p => p.1 == cid) = none := by
    unfold lookupConv at hnew
    cases h : st.find? (fun p => p.1 == cid) with
    | none => rfl
    | some v =>
      rw [h] at hnew
      simp at hnew
  have hone : append_trim N [] ⟨role, content⟩ = [⟨role, content⟩] := by
    unfold append_trim trimOf
    rcases hrole with h | h | h <;> subst h <;>
      simp [isSys, isUA, pyLastSlice_nil, pyLastSlice_singleton]
  constructor
  · unfold get_messages
    rw [hnew]
    rfl
  · unfold store_append
    rw [hnew]
    unfold get_messages lookupConv
    rw [List.find?_append, hfind, Option.none_or]
    simp only [List.find?_cons, beq_self_eq_true, cond_true, Option.map_some',
      Option.getD_some]
    exact hone

/-- Witness for `C9_unknown_conversation` at a concrete store and
unknown identifier. -/
theorem C9_unknown_conversation_witness :
    get_messages [("a", [⟨"user", "x"⟩])] "b" = []
    ∧ get_messages (store_append 8 [("a", [⟨"user", "x"⟩])] "b" "user" "hi") "b"
        = [⟨"user", "hi"⟩] :=
  C9_unknown_conversation [("a", [⟨"user", "x"⟩])] "b" "user" "hi" 8
    (Or.inr (Or.inl rfl)) (by decide)

/-! ### Claim C10 -/

/-- C10 confirmed: if a stored (trim-stable) conversation already
contains a system message, appending another system message is a
no-op — only the earliest system message survives the trim, so the
newly appended content never appears in later `get_messages`
results. -/
theorem C10_append_system_noop (N : Nat) (l : List Msg) (c : String)
    (hsys : l.filter isSys ≠ []) (hstable : trimOf N l = l) :
    append_trim N l ⟨"system", c⟩ = l
    ∧ (Msg.mk "system" c ∉ l → Msg.mk "system" c ∉ append_trim N l ⟨"system", c⟩) := by
  have hs : List.filter isSys [Msg.mk "system" c] = [Msg.mk "system" c] := rfl
  have hu : List.filter isUA [Msg.mk "system" c] = [] := rfl
  have key : append_trim N l ⟨"system", c⟩ = l := by
    unfold append_trim trimOf
    rw [List.filter_append, List.filter_append, hs, hu, List.append_nil,
      take_one_append_left _ _ hsys]
    conv_rhs => rw [← hstable]
    rfl
  refine ⟨key, ?_⟩
  rw [key]
  exact id

/-- Witness for `C10_append_system_noop` on a one-message stored
conversation. -/
theorem C10_append_system_noop_witness :
    append_trim 8 [Msg.mk "system" "s"] ⟨"system", "new"⟩ = [Msg.mk "system" "s"]
    ∧ (Msg.mk "system" "new" ∉ [Msg.mk "system" "s"] →
       Msg.mk "system" "new" ∉ append_trim 8 [Msg.mk "system" "s"] ⟨"system", "new"⟩) :=
  C10_append_system_noop 8 [Msg.mk "system" "s"] "new" (by decide) (by decide)

end MasutaPoc
